import Mathlib

/-!
Shallow embedding of the GetSticky server core (SQLite-backed graph store,
WebSocket protocol validation and dispatch, board-scoped connection registry,
and the Claude query orchestrator), together with theorems settling the
specification claims about it.

The durable store is modelled as an in-memory list of rows; `better-sqlite3`
statement failures (PRIMARY KEY and FOREIGN KEY violations, which throw in the
TypeScript code) are modelled as `none` results.  The schema enables
`foreign_keys = ON`, so those checks are part of the model.  Timestamps
(`CURRENT_TIMESTAMP`) are modelled as an explicit `now : Nat` parameter.
Loops whose termination is in question (the parent-chain walk in
`getInheritedContext`) take an explicit fuel parameter; `none` means the fuel
ran out, i.e. the loop was still running after that many iterations.
-/

namespace GetSticky

/-- JavaScript truthiness of a `string | null | undefined` value:
`null`/`undefined` and the empty string are falsy. -/
def strTruthy : Option String → Bool
  | none => false
  | some s => s != ""

/-- A row of the `nodes` table (see `initSchema`): id, type, content,
context, parent_id, created_at, updated_at. -/
structure DBNode where
  id : String
  type : String
  content : String
  context : String
  parent_id : Option String
  created_at : Nat
  updated_at : Nat
deriving DecidableEq, Repr

/-- A row of the `edges` table: id, source_id, target_id, label. -/
structure DBEdge where
  id : String
  source_id : String
  target_id : String
  label : Option String
deriving DecidableEq, Repr

/-- The `nodes` table, in insertion order. -/
abbrev NodeTable := List DBNode

/-- `SQLiteDB.getNode`: `SELECT * FROM nodes WHERE id = ?` (id is the primary
key, so the first match is the row). -/
def getNode (db : NodeTable) (id : String) : Option DBNode :=
  db.find? (fun n => n.id == id)

/-- The caller-supplied part of a node for `createNode`
(`Omit<Node, 'created_at' | 'updated_at'>`). -/
structure NodeInput where
  id : String
  type : String
  content : String
  context : String
  parent_id : Option String
deriving DecidableEq, Repr

/-- The row inserted by `createNode`: both timestamps default to
`CURRENT_TIMESTAMP`, and the context is `node.context || ''` (the identity on
strings, since `'' || ''` is `''`). -/
def insertedRow (n : NodeInput) (now : Nat) : DBNode :=
  { id := n.id, type := n.type, content := n.content, context := n.context
    parent_id := n.parent_id, created_at := now, updated_at := now }

/-- `SQLiteDB.createNode`: `INSERT INTO nodes (id, type, content, context,
parent_id) VALUES (?, ?, ?, ?, ?)` followed by `getNode`.  With
`foreign_keys = ON` the insert throws (`none`) when the id already exists
(PRIMARY KEY) or when a non-null `parent_id` references no row of the table
as it stands after the insert (FOREIGN KEY — a row may be its own parent). -/
def createNode (db : NodeTable) (n : NodeInput) (now : Nat) :
    Option (NodeTable × DBNode) :=
  if (getNode db n.id).isSome then none
  else
    let row := insertedRow n now
    let db' := db ++ [row]
    match n.parent_id with
    | none => some (db', row)
    | some p => if (getNode db' p).isSome then some (db', row) else none

/-- The `updates` argument of `SQLiteDB.updateNode`
(`Partial<Omit<Node, 'id' | 'created_at'>>`): each field is checked against
`undefined`; `parent_id` may be present and `null`. -/
structure NodeUpdates where
  content : Option String := none
  context : Option String := none
  type : Option String := none
  parent_id : Option (Option String) := none
deriving DecidableEq, Repr

/-- Whether any `fields.push(...)` ran, i.e. at least one recognised field of
the update object is not `undefined`. -/
def hasFields (u : NodeUpdates) : Bool :=
  u.content.isSome || u.context.isSome || u.type.isSome || u.parent_id.isSome

/-- The effect of the generated `UPDATE nodes SET ... , updated_at =
CURRENT_TIMESTAMP WHERE id = ?` on the matching row. -/
def applyUpdates (n : DBNode) (u : NodeUpdates) (now : Nat) : DBNode :=
  { n with
    content := u.content.getD n.content
    context := u.context.getD n.context
    type := u.type.getD n.type
    parent_id := match u.parent_id with | some p => p | none => n.parent_id
    updated_at := now }

/-- Whether the new `parent_id` value satisfies the foreign key: absent
updates and `NULL` always do; a string must reference an existing row. -/
def parentUpdateOk (db : NodeTable) (u : NodeUpdates) : Bool :=
  match u.parent_id with
  | some (some p) => (getNode db p).isSome
  | _ => true

/-- `SQLiteDB.updateNode`.  With no recognised field it returns `getNode id`
without touching the table.  Otherwise it runs the `UPDATE` (which throws,
`none`, on a foreign-key violation when a row is actually updated) and
returns `getNode id` (so `null` when the id matches no row). -/
def updateNode (db : NodeTable) (id : String) (u : NodeUpdates) (now : Nat) :
    Option (NodeTable × Option DBNode) :=
  if hasFields u = false then some (db, getNode db id)
  else
    match getNode db id with
    | none => some (db, none)
    | some _ =>
      if parentUpdateOk db u then
        let db' := db.map (fun n => if n.id == id then applyUpdates n u now else n)
        some (db', getNode db' id)
      else none

/-- `SQLiteDB.createEdge`: `INSERT INTO edges (id, source_id, target_id,
label) VALUES (?, ?, ?, ?)`; throws (`none`) on a duplicate id or when either
endpoint is missing (both endpoint columns carry foreign keys). -/
def createEdge (db : NodeTable) (edges : List DBEdge) (e : DBEdge) :
    Option (List DBEdge) :=
  if (edges.find? (fun x => x.id == e.id)).isSome then none
  else if (getNode db e.source_id).isSome && (getNode db e.target_id).isSome then
    some (edges ++ [e])
  else none

/-! ### The parent-chain walk of `getInheritedContext`

The TypeScript loop is

```
let currentNode: Node | null = node;
while (currentNode) {
  if (currentNode.context) contexts.unshift(currentNode.context);
  currentNode = currentNode.parent_id ? this.getNode(currentNode.parent_id) : null;
}
```

which keeps no record of already-visited ids.  `inheritLoop` is this loop with
an explicit iteration bound; `none` means the bound was reached with the loop
still running, so `(∀ fuel, ... = none)` states that the loop never exits. -/

/-- One step of the loop: `currentNode.parent_id ? getNode(parent_id) : null`. -/
def nextNode (db : NodeTable) (cur : DBNode) : Option DBNode :=
  match cur.parent_id with
  | none => none
  | some pid => if pid == "" then none else getNode db pid

/-- The `while (currentNode)` loop of `getInheritedContext`, with `contexts`
accumulated exactly as `unshift` does (each visited non-empty context is
prepended, so the final list is in root-to-leaf order). -/
def inheritLoop (db : NodeTable) : Nat → Option DBNode → List String → Option (List String)
  | _, none, contexts => some contexts
  | 0, some _, _ => none
  | fuel + 1, some cur, contexts =>
    inheritLoop db fuel (nextNode db cur)
      (if cur.context == "" then contexts else cur.context :: contexts)

/-- `SQLiteDB.getInheritedContext`: early return `node?.context || ''` when
the node is missing or has a falsy `parent_id`; otherwise the loop above
followed by `contexts.join('\n\n')`. -/
def getInheritedContext (db : NodeTable) (nodeId : String) (fuel : Nat) :
    Option String :=
  match getNode db nodeId with
  | none => some ""
  | some node =>
    if strTruthy node.parent_id then
      (inheritLoop db fuel (some node) []).map (String.intercalate "\n\n")
    else
      some node.context

/-- The list of nodes the loop visits, leaf first, when it reaches the end of
the chain within `fuel` steps; `none` when it does not.  `some visited` is
exactly the statement that the walk from the given node terminates, i.e. the
parent chain is acyclic (and each id lookup either resolves or ends the walk). -/
def chainFrom (db : NodeTable) : Nat → Option DBNode → Option (List DBNode)
  | _, none => some []
  | 0, some _ => none
  | fuel + 1, some cur => (chainFrom db fuel (nextNode db cur)).map (cur :: ·)

/-- The context fragments `getInheritedContext` assembles from a visited
chain (leaf first): the non-empty `context` fields in root-to-leaf order. -/
def inheritedFragments (visited : List DBNode) : List String :=
  (visited.reverse.map DBNode.context).filter (fun s => s != "")

/-- The caller-supplied part of a node for `branchNode`. -/
structure BranchInput where
  id : String
  type : String
  content : String
deriving DecidableEq, Repr

/-- Possible results of `branchNode`: the parent lookup fails (`null` is
returned, nothing created), the inherited-context walk never finishes, the
insert throws, or the child is created. -/
inductive BranchResult where
  | notFound
  | timeout
  | sqlError
  | created (db' : NodeTable) (child : DBNode)
deriving DecidableEq, Repr

/-- `SQLiteDB.branchNode`: look up the parent (`null` when missing), compute
its full inherited context, and create the child with that context and
`parent_id = parentId`. -/
def branchNode (db : NodeTable) (parentId : String) (nd : BranchInput)
    (fuel : Nat) (now : Nat) : BranchResult :=
  match getNode db parentId with
  | none => .notFound
  | some _ =>
    match getInheritedContext db parentId fuel with
    | none => .timeout
    | some inheritedContext =>
      match createNode db
          { id := nd.id, type := nd.type, content := nd.content
            context := inheritedContext, parent_id := some parentId } now with
      | none => .sqlError
      | some (db', child) => .created db' child

/-! ### Lemmas about the parent-chain walk -/

theorem intercalate_nil (s : String) : String.intercalate s [] = "" := rfl

theorem intercalate_singleton (s x : String) : String.intercalate s [x] = x := rfl

theorem nextNode_eq_none (db : NodeTable) (c : DBNode)
    (h : strTruthy c.parent_id = false) : nextNode db c = none := by
  cases hp : c.parent_id with
  | none => simp [nextNode, hp]
  | some s =>
    rw [hp] at h
    simp only [strTruthy, bne_eq_false_iff_eq, beq_iff_eq] at h
    simp [nextNode, hp, h]

theorem inheritLoop_eq_chainFrom (db : NodeTable) :
    ∀ (fuel : Nat) (cur : Option DBNode) (acc : List String),
    inheritLoop db fuel cur acc =
      (chainFrom db fuel cur).map
        (fun vs => ((vs.reverse.map DBNode.context).filter (fun s => s != "")) ++ acc) := by
  intro fuel
  induction fuel with
  | zero => intro cur acc; cases cur <;> simp [inheritLoop, chainFrom]
  | succ n ih =>
    intro cur acc
    cases cur with
    | none => simp [inheritLoop, chainFrom]
    | some c =>
      simp only [inheritLoop, chainFrom, ih]
      cases h : chainFrom db n (nextNode db c) with
      | none => simp
      | some vs =>
        simp only [Option.map_some, Option.map_map, Function.comp_def,
          List.reverse_cons, List.map_append, List.filter_append,
          Option.some.injEq]
        by_cases hc : c.context == ""
        · have hb : (c.context != "") = false := by simp [bne, hc]
          simp [List.filter, hb, hc]
        · have hb : (c.context != "") = true := by
            simp only [bne, Bool.not_eq_false]
            simpa using hc
          simp [List.filter, hb, hc]

/-- Claim C1 (code bug): `getInheritedContext` keeps no record of visited
ids, so on a node that is its own parent — a state reachable through
`createNode` itself, since SQLite's foreign-key check admits a row
referencing itself — the `while (currentNode)` loop never exits: for every
iteration bound the loop is still running. -/
def cycInput : NodeInput :=
  { id := "a", type := "conversation", content := "c", context := "x"
    parent_id := some "a" }

def cycNode : DBNode := insertedRow cycInput 0

def cycDB : NodeTable := [cycNode]

theorem inheritLoop_cyc (fuel : Nat) :
    ∀ acc, inheritLoop cycDB fuel (some cycNode) acc = none := by
  induction fuel with
  | zero => intro acc; rfl
  | succ n ih =>
    intro acc
    have hnext : nextNode cycDB cycNode = some cycNode := rfl
    simp only [inheritLoop, hnext]
    exact ih _

/-- Claim C1: the self-parent node is creatable through `createNode`, and on
it `getInheritedContext` never terminates — the traversal does not stop upon
revisiting a node id already seen, contrary to the specification. -/
theorem getInheritedContext_cycle_never_terminates :
    createNode [] cycInput 0 = some (cycDB, cycNode) ∧
    ∀ fuel, getInheritedContext cycDB "a" fuel = none := by
  refine ⟨rfl, fun fuel => ?_⟩
  have h : getNode cycDB "a" = some cycNode := rfl
  have ht : strTruthy cycNode.parent_id = true := rfl
  simp [getInheritedContext, h, ht, inheritLoop_cyc]

/-- Claim C4: on a node whose parent chain is acyclic (the walk reaches the
end of the chain within the given bound, visiting `visited`, leaf first),
`getInheritedContext` returns exactly the non-empty `context` fields of the
visited nodes in root-to-leaf order, joined with a blank line; when every
visited context is non-empty that is exactly one fragment per visited node. -/
theorem getInheritedContext_acyclic (db : NodeTable) (nodeId : String)
    (fuel : Nat) (node : DBNode) (visited : List DBNode)
    (hn : getNode db nodeId = some node)
    (hc : chainFrom db fuel (some node) = some visited) :
    getInheritedContext db nodeId fuel =
      some (String.intercalate "\n\n" (inheritedFragments visited)) ∧
    ((∀ n ∈ visited, n.context ≠ "") →
      (inheritedFragments visited).length = visited.length) := by
  constructor
  · unfold getInheritedContext
    rw [hn]
    by_cases hp : strTruthy node.parent_id
    · simp only [hp, if_true]
      rw [inheritLoop_eq_chainFrom, hc]
      simp [inheritedFragments]
    · have hnext : nextNode db node = none :=
        nextNode_eq_none db node (by simpa using hp)
      cases fuel with
      | zero => simp [chainFrom] at hc
      | succ n =>
        simp only [chainFrom, hnext, Option.map_some] at hc
        injection hc with hc
        subst hc
        simp only [hp, if_false, Bool.false_eq_true, if_neg, not_false_iff]
        by_cases hctx : node.context = ""
        · have hb : (node.context != "") = false := by simp [bne, hctx]
          simp [inheritedFragments, List.filter, hb, hctx, intercalate_nil]
        · have hb : (node.context != "") = true := by simp [bne, hctx]
          simp [inheritedFragments, List.filter, hb, intercalate_singleton]
  · intro hall
    unfold inheritedFragments
    rw [List.filter_eq_self.mpr]
    · simp
    · intro s hs
      simp only [List.mem_map, List.mem_reverse] at hs
      obtain ⟨m, hm, rfl⟩ := hs
      simpa [bne] using hall m hm

/-- Witness for C4: a two-node chain, root context `"A"`, leaf context
`"B"`, yields `"A\n\nB"`. -/
def c4root : DBNode :=
  { id := "r", type := "richtext", content := "", context := "A"
    parent_id := none, created_at := 0, updated_at := 0 }

def c4child : DBNode :=
  { id := "c", type := "conversation", content := "", context := "B"
    parent_id := some "r", created_at := 1, updated_at := 1 }

def c4db : NodeTable := [c4root, c4child]

theorem getInheritedContext_acyclic_witness :
    getInheritedContext c4db "c" 5 =
      some (String.intercalate "\n\n" (inheritedFragments [c4child, c4root])) ∧
    ((∀ n ∈ [c4child, c4root], n.context ≠ "") →
      (inheritedFragments [c4child, c4root]).length = [c4child, c4root].length) :=
  getInheritedContext_acyclic c4db "c" 5 c4child [c4child, c4root]
    (by decide) (by decide)

/-! ### Node creation, branching and update -/

theorem getNode_append_of_some (db l : NodeTable) (p : String) (x : DBNode)
    (h : getNode db p = some x) : getNode (db ++ l) p = some x := by
  simp only [getNode] at h ⊢
  simp [List.find?_append, h]

/-- A `createNode` whose id is fresh succeeds whenever its `parent_id` is
`NULL`, references an existing row, or references the new row itself. -/
theorem createNode_ok (db : NodeTable) (n : NodeInput) (now : Nat)
    (hfresh : getNode db n.id = none)
    (hparent : ∀ p, n.parent_id = some p → p = n.id ∨ (getNode db p).isSome) :
    createNode db n now = some (db ++ [insertedRow n now], insertedRow n now) := by
  unfold createNode
  simp only [hfresh, Option.isSome_none, Bool.false_eq_true, if_false]
  cases hp : n.parent_id with
  | none => rfl
  | some p =>
    have : (getNode (db ++ [insertedRow n now]) p).isSome := by
      rcases hparent p hp with h | h
      · subst h
        simp only [getNode, List.find?_append]
        have hfr : db.find? (fun m => m.id == n.id) = none := hfresh
        simp [hfr, List.find?, insertedRow]
      · obtain ⟨x, hx⟩ := Option.isSome_iff_exists.mp h
        simp [getNode_append_of_some db _ p x hx]
    simp [this]

/-- Claim C8 (counterexample): with `foreign_keys = ON` and the
`parent_id REFERENCES nodes(id)` constraint of `initSchema`, inserting a node
whose `parent_id` references no existing node throws instead of succeeding —
parent existence is enforced at creation. -/
def danglingInput : NodeInput :=
  { id := "n1", type := "conversation", content := "c", context := ""
    parent_id := some "ghost" }

theorem createNode_dangling_parent_fails : createNode [] danglingInput 0 = none := by
  decide

/-- Claim C8 (amended): `createNode` succeeds for a fresh id whenever the
`parent_id` is `NULL`, references an existing node, or references the new
node itself; a `parent_id` referencing no node makes the insert fail (the
foreign key rejects it) rather than being treated as no-parent. -/
theorem createNode_parent_policy (db : NodeTable) (n : NodeInput) (now : Nat)
    (hfresh : getNode db n.id = none)
    (hparent : ∀ p, n.parent_id = some p → p = n.id ∨ (getNode db p).isSome) :
    createNode db n now = some (db ++ [insertedRow n now], insertedRow n now) :=
  createNode_ok db n now hfresh hparent

/-- Witness for the amended C8: a fresh node pointing at the existing root
`"r"` of `c4db` is created. -/
def c8input : NodeInput :=
  { id := "k2", type := "conversation", content := "", context := ""
    parent_id := some "r" }

theorem createNode_parent_policy_witness :
    createNode c4db c8input 0 =
      some (c4db ++ [insertedRow c8input 0], insertedRow c8input 0) :=
  createNode_parent_policy c4db c8input 0 (by decide)
    (by intro p hp; right; cases hp; decide)

/-- Claim C5: `branchNode` returns `null` (creating nothing) when the parent
is missing; when the parent exists, the inherited-context walk terminates,
and the new id is fresh, it creates a child whose `parent_id` is the parent's
id and whose own `context` field equals the parent's full inherited context. -/
theorem branchNode_spec (db : NodeTable) (parentId : String) (nd : BranchInput)
    (fuel now : Nat) :
    (getNode db parentId = none → branchNode db parentId nd fuel now = .notFound) ∧
    (∀ parent ic, getNode db parentId = some parent →
      getInheritedContext db parentId fuel = some ic →
      getNode db nd.id = none →
      branchNode db parentId nd fuel now =
        .created
          (db ++ [insertedRow
            { id := nd.id, type := nd.type, content := nd.content
              context := ic, parent_id := some parentId } now])
          (insertedRow
            { id := nd.id, type := nd.type, content := nd.content
              context := ic, parent_id := some parentId } now)) := by
  constructor
  · intro h
    simp [branchNode, h]
  · intro parent ic hpar hic hfresh
    simp only [branchNode, hpar, hic]
    rw [createNode_ok db _ now hfresh]
    intro p hp
    injection hp with hp
    subst hp
    right
    simp [hpar]

/-- Witness for C5: branching off the leaf `"c"` of `c4db` (whose inherited
context is `"A\n\nB"`) creates a child with that exact context, and branching
off a missing id returns not-found. -/
def c5input : BranchInput := { id := "k", type := "conversation", content := "cc" }

theorem branchNode_spec_witness :
    branchNode c4db "zzz" c5input 5 0 = .notFound ∧
    branchNode c4db "c" c5input 5 0 =
      .created
        (c4db ++ [insertedRow
          { id := "k", type := "conversation", content := "cc"
            context := "A\n\nB", parent_id := some "c" } 0])
        (insertedRow
          { id := "k", type := "conversation", content := "cc"
            context := "A\n\nB", parent_id := some "c" } 0) :=
  ⟨(branchNode_spec c4db "zzz" c5input 5 0).1 (by decide),
   (branchNode_spec c4db "c" c5input 5 0).2 c4child "A\n\nB"
     (by decide) (by decide) (by decide)⟩

/-- Claim C9 (counterexample): an update that specifies none of the
recognised fields returns the node without refreshing `updated_at` — the
early `return this.getNode(id)` runs before any `updated_at =
CURRENT_TIMESTAMP` is pushed. -/
def c9node : DBNode :=
  { id := "a", type := "conversation", content := "c", context := "x"
    parent_id := none, created_at := 5, updated_at := 5 }

def c9db : NodeTable := [c9node]

def noUpdates : NodeUpdates := {}

theorem updateNode_empty_update_no_stamp :
    updateNode c9db "a" noUpdates 10 = some (c9db, some c9node) ∧
    c9node.updated_at ≠ 10 :=
  ⟨rfl, by decide⟩

theorem getNode_after_update (db : NodeTable) (id : String) (u : NodeUpdates)
    (now : Nat) (n : DBNode) (hn : getNode db id = some n) :
    getNode (db.map (fun m => if m.id == id then applyUpdates m u now else m)) id =
      some (applyUpdates n u now) := by
  induction db with
  | nil => simp [getNode] at hn
  | cons a l ih =>
    simp only [getNode] at hn ih ⊢
    rw [List.map_cons]
    by_cases h : a.id == id
    · rw [List.find?_cons_of_pos (p := fun m : DBNode => m.id == id) _ h] at hn
      injection hn with hn
      subst hn
      have hpos : ((if a.id == id then applyUpdates a u now else a).id == id) = true := by
        simp [h, applyUpdates]
      rw [List.find?_cons_of_pos (p := fun m : DBNode => m.id == id) _ hpos]
      simp [h]
    · rw [List.find?_cons_of_neg (p := fun m : DBNode => m.id == id) _ (by simp [h])] at hn
      have hneg : ¬((if a.id == id then applyUpdates a u now else a).id == id) = true := by
        simp only [Bool.not_eq_true] at h
        simp [h, applyUpdates]
      rw [List.find?_cons_of_neg (p := fun m : DBNode => m.id == id) _ hneg]
      exact ih hn

/-- Claim C9 (amended): `updateNode` stamps `updated_at` with the time of the
call exactly when at least one recognised field is supplied (and the node
exists and the new `parent_id`, if any, satisfies the foreign key); an update
with no recognised field leaves the table and the timestamp untouched. -/
theorem updateNode_stamps_when_fields (db : NodeTable) (id : String)
    (u : NodeUpdates) (now : Nat) (n : DBNode)
    (hf : hasFields u = true)
    (hn : getNode db id = some n)
    (hfk : parentUpdateOk db u = true) :
    updateNode db id u now =
      some (db.map (fun m => if m.id == id then applyUpdates m u now else m),
            some (applyUpdates n u now)) ∧
    (applyUpdates n u now).updated_at = now := by
  refine ⟨?_, rfl⟩
  unfold updateNode
  rw [if_neg (by simp [hf])]
  simp only [hn, hfk, if_true]
  rw [getNode_after_update db id u now n hn]

/-- Witness for the amended C9: updating only the context of `c9db`'s node at
time 10 stamps `updated_at = 10`. -/
def c9upd : NodeUpdates := { context := some "new" }

theorem updateNode_stamps_witness :
    updateNode c9db "a" c9upd 10 =
      some (c9db.map (fun m => if m.id == "a" then applyUpdates m c9upd 10 else m),
            some (applyUpdates c9node c9upd 10)) ∧
    (applyUpdates c9node c9upd 10).updated_at = 10 :=
  updateNode_stamps_when_fields c9db "a" c9upd 10 c9node (by decide) (by decide)
    (by decide)

/-! ### Connection registry (`boardClients` / `clientBoard`)

Connections are identified by naturals.  `boardClients` maps a board id to
the set of its member connections (modelled as an insertion-ordered list) and
`clientBoard` maps a connection to its board, mirroring the two `Map`s of
`GetStickyWSServer`. -/

structure Registry where
  boardClients : List (String × List Nat)
  clientBoard : List (Nat × String)
deriving DecidableEq, Repr

/-- `this.boardClients.get(boardId)`, defaulting to the empty set. -/
def clientsOf (r : Registry) (boardId : String) : List Nat :=
  ((r.boardClients.find? (fun p => p.1 == boardId)).map Prod.snd).getD []

/-- `this.clientBoard.get(ws)`. -/
def lookupBoard (r : Registry) (ws : Nat) : Option String :=
  (r.clientBoard.find? (fun p => p.1 == ws)).map Prod.snd

/-- `GetStickyWSServer.getBoardId`: `this.clientBoard.get(ws) || 'default'`. -/
def getBoardId (r : Registry) (ws : Nat) : String :=
  (lookupBoard r ws).getD "default"

/-- `GetStickyWSServer.addClientToBoard`: record the connection's board in
`clientBoard`, create the board's member set if absent, and add the
connection to it. -/
def addClientToBoard (r : Registry) (ws : Nat) (boardId : String) : Registry :=
  let cb :=
    if (r.clientBoard.find? (fun p => p.1 == ws)).isSome then
      r.clientBoard.map (fun p => if p.1 == ws then (ws, boardId) else p)
    else r.clientBoard ++ [(ws, boardId)]
  let bc :=
    if (r.boardClients.find? (fun p => p.1 == boardId)).isSome then
      r.boardClients.map (fun p =>
        if p.1 == boardId then (p.1, if ws ∈ p.2 then p.2 else p.2 ++ [ws]) else p)
    else r.boardClients ++ [(boardId, [ws])]
  { boardClients := bc, clientBoard := cb }

/-- `GetStickyWSServer.removeClient`: remove the connection from its board's
member set (dropping the board's entry when the set becomes empty) and from
`clientBoard`. -/
def removeClient (r : Registry) (ws : Nat) : Registry :=
  let cb := r.clientBoard.filter (fun p => !(p.1 == ws))
  match r.clientBoard.find? (fun p => p.1 == ws) with
  | none => { boardClients := r.boardClients, clientBoard := cb }
  | some (_, boardId) =>
    let bc0 := r.boardClients.map (fun p =>
      if p.1 == boardId then (p.1, p.2.filter (fun w => !(w == ws))) else p)
    let bc :=
      match bc0.find? (fun p => p.1 == boardId) with
      | some (_, cs) =>
        if cs.isEmpty then bc0.filter (fun p => !(p.1 == boardId)) else bc0
      | none => bc0
    { boardClients := bc, clientBoard := cb }

/-- `GetStickyWSServer.broadcastToBoard`: the connections that receive a
message broadcast to the board — the members of the board's set whose
`readyState` is `OPEN`. -/
def broadcastToBoard (r : Registry) (boardId : String) (openConns : List Nat) :
    List Nat :=
  (clientsOf r boardId).filter (fun w => openConns.contains w)

/-- Registry well-formedness: every connection found in some board's member
set is mapped to that board by `clientBoard`.  `addClientToBoard` on a fresh
connection and `removeClient` preserve it (proved below), and the server only
ever adds freshly-accepted connections. -/
def Wf (r : Registry) : Prop :=
  ∀ p ∈ r.boardClients, ∀ ws ∈ p.2, lookupBoard r ws = some p.1

instance (r : Registry) : Decidable (Wf r) := by
  unfold Wf
  infer_instance

theorem find?_filter_imp {α : Type} (l : List α) (p q : α → Bool)
    (h : ∀ x, p x = true → q x = true) :
    (l.filter q).find? p = l.find? p := by
  induction l with
  | nil => rfl
  | cons a t ih =>
    by_cases hq : q a
    · rw [List.filter_cons_of_pos hq]
      by_cases hp : p a
      · rw [List.find?_cons_of_pos _ hp, List.find?_cons_of_pos _ hp]
      · rw [List.find?_cons_of_neg _ hp, List.find?_cons_of_neg _ hp]
        exact ih
    · rw [List.filter_cons_of_neg hq]
      have hp : ¬ p a = true := fun hpa => hq (h a hpa)
      rw [List.find?_cons_of_neg _ hp]
      exact ih

theorem cbFilter_lookup (l : List (Nat × String)) (ws w : Nat) :
    ((l.filter (fun p => !(p.1 == ws))).find? (fun p => p.1 == w)).map Prod.snd =
      if w = ws then none else (l.find? (fun p => p.1 == w)).map Prod.snd := by
  by_cases hw : w = ws
  · subst hw
    have hnone : (l.filter (fun p => !(p.1 == w))).find? (fun p => p.1 == w) = none := by
      rw [List.find?_eq_none]
      intro a ha
      have h2 := (List.mem_filter.mp ha).2
      simpa using h2
    simp [hnone]
  · rw [find?_filter_imp]
    · simp [hw]
    · intro x hx
      simp only [beq_iff_eq] at hx
      simp [hx, hw]

theorem lookupBoard_addClient (r : Registry) (ws : Nat) (b : String)
    (hfresh : lookupBoard r ws = none) (w : Nat) :
    lookupBoard (addClientToBoard r ws b) w =
      if w = ws then some b else lookupBoard r w := by
  have hf : r.clientBoard.find? (fun p => p.1 == ws) = none := by
    simpa [lookupBoard, Option.map_eq_none'] using hfresh
  unfold addClientToBoard lookupBoard
  simp only [hf, Option.isSome_none, Bool.false_eq_true, if_false]
  rw [List.find?_append]
  by_cases hw : w = ws
  · subst hw
    simp [hf, List.find?]
  · cases hfw : r.clientBoard.find? (fun p => p.1 == w) with
    | some q => simp [hfw, hw]
    | none =>
      have : ((ws, b).1 == w) = false := by
        simp only [beq_eq_false_iff_ne, ne_eq]
        exact fun hh => hw (hh ▸ rfl)
      simp [hfw, List.find?, this, hw]

theorem lookupBoard_removeClient (r : Registry) (ws w : Nat) :
    lookupBoard (removeClient r ws) w =
      if w = ws then none else lookupBoard r w := by
  unfold removeClient
  cases hm : r.clientBoard.find? (fun p => p.1 == ws) with
  | none =>
    simp only [lookupBoard]
    exact cbFilter_lookup r.clientBoard ws w
  | some q =>
    simp only [lookupBoard]
    exact cbFilter_lookup r.clientBoard ws w

theorem wf_empty : Wf { boardClients := [], clientBoard := [] } := by
  intro p hp
  simp at hp

theorem mem_clientsOf (r : Registry) (ws : Nat) (b : String)
    (h : ws ∈ clientsOf r b) :
    ∃ q ∈ r.boardClients, q.1 = b ∧ ws ∈ q.2 := by
  unfold clientsOf at h
  cases hf : r.boardClients.find? (fun p => p.1 == b) with
  | none => simp [hf] at h
  | some q =>
    rw [hf] at h
    simp at h
    refine ⟨q, List.mem_of_find?_eq_some hf, ?_, h⟩
    have := List.find?_some hf
    simpa using this

theorem wf_addClient (r : Registry) (ws : Nat) (b : String)
    (hwf : Wf r) (hfresh : lookupBoard r ws = none) :
    Wf (addClientToBoard r ws b) := by
  intro p hp w hw
  rw [lookupBoard_addClient r ws b hfresh w]
  have hbc : (addClientToBoard r ws b).boardClients =
      (if (r.boardClients.find? (fun p => p.1 == b)).isSome then
        r.boardClients.map (fun p =>
          if p.1 == b then (p.1, if ws ∈ p.2 then p.2 else p.2 ++ [ws]) else p)
      else r.boardClients ++ [(b, [ws])]) := rfl
  rw [hbc] at hp
  by_cases hex : (r.boardClients.find? (fun p => p.1 == b)).isSome
  · rw [if_pos hex] at hp
    obtain ⟨q, hq, rfl⟩ := List.mem_map.mp hp
    by_cases hqb : q.1 == b
    · simp only [hqb, if_true] at hw ⊢
      have hq1 : q.1 = b := by simpa using hqb
      by_cases hmem : ws ∈ q.2
      · simp only [hmem, if_true] at hw
        have hlk := hwf q hq w hw
        have hwne : w ≠ ws := by
          intro hcontra
          rw [hcontra, hfresh] at hlk
          exact Option.noConfusion hlk
        rw [if_neg hwne]
        exact hlk
      · simp only [hmem, if_false] at hw
        rcases List.mem_append.mp hw with hw | hw
        · have hlk := hwf q hq w hw
          have hwne : w ≠ ws := by
            intro hcontra
            rw [hcontra, hfresh] at hlk
            exact Option.noConfusion hlk
          rw [if_neg hwne]
          exact hlk
        · have : w = ws := by simpa using hw
          rw [if_pos this, hq1]
    · simp only [hqb, Bool.false_eq_true, if_false] at hw ⊢
      have hlk := hwf q hq w hw
      have hwne : w ≠ ws := by
        intro hcontra
        rw [hcontra, hfresh] at hlk
        exact Option.noConfusion hlk
      rw [if_neg hwne]
      exact hlk
  · rw [if_neg hex] at hp
    rcases List.mem_append.mp hp with hp | hp
    · have hlk := hwf p hp w hw
      have hwne : w ≠ ws := by
        intro hcontra
        rw [hcontra, hfresh] at hlk
        exact Option.noConfusion hlk
      rw [if_neg hwne]
      exact hlk
    · have hpb : p = (b, [ws]) := by simpa using hp
      subst hpb
      have : w = ws := by simpa using hw
      rw [if_pos this]

theorem wf_removeClient (r : Registry) (ws : Nat) (hwf : Wf r) :
    Wf (removeClient r ws) := by
  intro p hp w hw
  rw [lookupBoard_removeClient r ws w]
  unfold removeClient at hp
  cases hm : r.clientBoard.find? (fun q => q.1 == ws) with
  | none =>
    rw [hm] at hp
    have hlk := hwf p hp w hw
    have hwne : w ≠ ws := by
      intro hcontra
      subst hcontra
      have : lookupBoard r w = none := by simp [lookupBoard, hm]
      rw [this] at hlk
      exact Option.noConfusion hlk
    rw [if_neg hwne]
    exact hlk
  | some q =>
    rw [hm] at hp
    obtain ⟨cid, boardId⟩ := q
    simp only at hp
    have hp0 : p ∈ r.boardClients.map (fun p =>
        if p.1 == boardId then (p.1, p.2.filter (fun v => !(v == ws))) else p) := by
      revert hp
      cases hfind : (r.boardClients.map (fun p =>
          if p.1 == boardId then (p.1, p.2.filter (fun v => !(v == ws))) else p)).find?
            (fun p => p.1 == boardId) with
      | none => intro hp; exact hp
      | some qq =>
        intro hp
        by_cases hemp : qq.2.isEmpty
        · simp only [hemp, if_true] at hp
          exact (List.mem_filter.mp hp).1
        · simpa [hemp] using hp
    obtain ⟨q0, hq0, rfl⟩ := List.mem_map.mp hp0
    by_cases hqb : q0.1 == boardId
    · simp only [hqb, if_true] at hw ⊢
      have hw2 := List.mem_filter.mp hw
      have hwmem : w ∈ q0.2 := hw2.1
      have hwne : w ≠ ws := by simpa using hw2.2
      rw [if_neg hwne]
      exact hwf q0 hq0 w hwmem
    · simp only [hqb, Bool.false_eq_true, if_false] at hw ⊢
      have hlk := hwf q0 hq0 w hw
      have hwne : w ≠ ws := by
        intro hcontra
        subst hcontra
        have : lookupBoard r w = some boardId := by simp [lookupBoard, hm]
        rw [this] at hlk
        injection hlk with hlk
        have hqne : q0.1 ≠ boardId := by simpa using hqb
        exact hqne hlk.symm
      rw [if_neg hwne]
      exact hlk

/-- Claim C3: in a well-formed registry, the board a mutation handler
broadcasts to is the board of the originating connection, and the broadcast
is delivered only to members of that board — never to a connection joined to
any other board. -/
theorem broadcast_isolated_between_boards (r : Registry) (hwf : Wf r)
    (ws0 : Nat) (b1 b2 : String)
    (h1 : lookupBoard r ws0 = some b1) (hne : b1 ≠ b2)
    (openConns : List Nat) :
    getBoardId r ws0 = b1 ∧
    ∀ ws ∈ broadcastToBoard r (getBoardId r ws0) openConns,
      ws ∈ clientsOf r b1 ∧ lookupBoard r ws = some b1 ∧
      lookupBoard r ws ≠ some b2 := by
  have hb : getBoardId r ws0 = b1 := by simp [getBoardId, h1]
  refine ⟨hb, ?_⟩
  intro ws hws
  rw [hb] at hws
  have hmem : ws ∈ clientsOf r b1 := (List.mem_filter.mp hws).1
  obtain ⟨q, hq, hq1, hwsq⟩ := mem_clientsOf r ws b1 hmem
  have hlk : lookupBoard r ws = some b1 := hq1 ▸ hwf q hq ws hwsq
  refine ⟨hmem, hlk, ?_⟩
  rw [hlk]
  intro hcontra
  injection hcontra with hcontra
  exact hne hcontra

/-- Witness for C3: connections 1 and 2 on board `"b1"`, connection 3 on
board `"b2"`; a broadcast triggered by connection 1 goes to board `"b1"`
and reaches no connection joined to `"b2"`. -/
def c3reg : Registry :=
  addClientToBoard
    (addClientToBoard
      (addClientToBoard { boardClients := [], clientBoard := [] } 1 "b1")
      2 "b1")
    3 "b2"

theorem broadcast_isolated_witness :
    getBoardId c3reg 1 = "b1" ∧
    ∀ ws ∈ broadcastToBoard c3reg (getBoardId c3reg 1) [1, 2, 3],
      ws ∈ clientsOf c3reg "b1" ∧ lookupBoard c3reg ws = some "b1" ∧
      lookupBoard c3reg ws ≠ some "b2" :=
  broadcast_isolated_between_boards c3reg (by decide) 1 "b1" "b2"
    (by decide) (by decide) [1, 2, 3]

/-! ### JavaScript values and the inbound message validation

`JSVal` models the values a parsed JSON payload (plus `undefined`) can take;
`truthy`, `getField` and `typeof x === 'object'` follow JavaScript semantics
(`typeof null` is `'object'`). -/

inductive JSVal where
  | vundef
  | vnull
  | vbool (b : Bool)
  | vnum (n : Int)
  | vstr (s : String)
  | vobj (fields : List (String × JSVal))

def JSVal.truthy : JSVal → Bool
  | .vundef => false
  | .vnull => false
  | .vbool b => b
  | .vnum n => n != 0
  | .vstr s => s != ""
  | .vobj _ => true

def JSVal.getField : JSVal → String → JSVal
  | .vobj fs, k => ((fs.find? (fun p => p.1 == k)).map Prod.snd).getD .vundef
  | _, _ => .vundef

def JSVal.isString : JSVal → Bool
  | .vstr _ => true
  | _ => false

def JSVal.strD : JSVal → String
  | .vstr s => s
  | _ => ""

/-- `typeof x === 'object'` — true for objects and for `null`. -/
def JSVal.typeofObject : JSVal → Bool
  | .vobj _ => true
  | .vnull => true
  | _ => false

/-- The `VALID_WS_TYPES` allow-list. -/
def VALID_WS_TYPES : List String :=
  ["create_node", "update_node", "delete_node",
   "create_edge", "update_edge", "delete_edge",
   "add_context", "search_context",
   "ask_claude", "comment_ask_claude",
   "get_settings", "update_settings",
   "create_board", "delete_board", "list_boards",
   "list_projects", "create_project", "delete_project", "get_project_boards",
   "update_viewport"]

/-- An outbound error frame: `{ type: 'error', error, requestId }`, with
`requestId` the raw `parsed.id` value (`vundef` when absent/omitted). -/
structure WSErrorOut where
  error : String
  requestId : JSVal

/-- `parsed.data !== undefined && typeof parsed.data !== 'object'`. -/
def dataInvalid (v : JSVal) : Bool :=
  match v.getField "data" with
  | .vundef => false
  | d => !d.typeofObject

inductive ValidationStep where
  | reject (e : WSErrorOut)
  | dispatch (t : String) (v : JSVal)

/-- The message-validation prologue of the `ws.on('message')` handler: a
JSON parse failure (`.error m`, carrying the exception's message) is reported
with no request id; a falsy parse result or non-string `type` is reported
with no request id; an unknown `type` or a non-object `data` is reported
tagged with `parsed.id`; otherwise the message is dispatched. -/
def validateMessage : Except String JSVal → ValidationStep
  | .error m => .reject { error := m, requestId := .vundef }
  | .ok v =>
    if !v.truthy || !(v.getField "type").isString then
      .reject { error := "Invalid message: missing \"type\" field", requestId := .vundef }
    else if !(VALID_WS_TYPES.contains ((v.getField "type").strD)) then
      .reject { error := "Unknown message type: " ++ (v.getField "type").strD
                requestId := v.getField "id" }
    else if dataInvalid v then
      .reject { error := "Invalid message: \"data\" must be an object"
                requestId := v.getField "id" }
    else .dispatch ((v.getField "type").strD) v

/-- The observable effect of the validation prologue: the list of error
frames sent to the offending connection, the list of board broadcasts it
emits (always empty — `sendError` only ever targets the one socket), and
whether the connection is kept open (always true — no close call). -/
def validationEffects (raw : Except String JSVal) :
    List WSErrorOut × List (String × WSErrorOut) × Bool :=
  match validateMessage raw with
  | .reject e => ([e], [], true)
  | .dispatch _ _ => ([], [], true)

/-- Claim C7 (counterexample): a payload whose `type` is present but not a
string is rejected with an error that carries no request id even though the
payload's `id` is present — the missing-`type` error path never attaches
`parsed.id`. -/
def c7bad : JSVal := .vobj [("type", .vnum 7), ("id", .vstr "req-1")]

theorem validate_missing_type_drops_id :
    validateMessage (.ok c7bad) =
      .reject { error := "Invalid message: missing \"type\" field"
                requestId := .vundef } ∧
    c7bad.getField "id" = .vstr "req-1" :=
  ⟨rfl, rfl⟩

/-- Claim C7 (amended): every malformed or unknown-`type` payload produces
exactly one structured error sent to the offending connection only, never
broadcast, with the connection kept open; the error carries `parsed.id` in
the unknown-`type` and bad-`data` branches, while the missing/non-string
`type` branch (and a JSON parse failure) sends it without the id even when
one is present. -/
theorem validation_error_policy (raw : Except String JSVal) (e : WSErrorOut)
    (h : validateMessage raw = .reject e) :
    validationEffects raw = ([e], [], true) ∧
    (∀ v, raw = .ok v → (!v.truthy || !(v.getField "type").isString) = true →
      e.requestId = .vundef) ∧
    (∀ m, raw = .error m → e.requestId = .vundef) ∧
    (∀ v, raw = .ok v → (!v.truthy || !(v.getField "type").isString) = false →
      e.requestId = v.getField "id") := by
  refine ⟨?_, ?_, ?_, ?_⟩
  · unfold validationEffects
    rw [h]
  · intro v hv hcond
    subst hv
    simp only [validateMessage] at h
    rw [if_pos hcond] at h
    injection h with h
    rw [← h]
  · intro m hm
    subst hm
    simp only [validateMessage] at h
    injection h with h
    rw [← h]
  · intro v hv hcond
    subst hv
    simp only [validateMessage] at h
    rw [if_neg (by simp [hcond])] at h
    by_cases hk : VALID_WS_TYPES.contains ((v.getField "type").strD)
    · rw [if_neg (by rw [hk]; decide)] at h
      by_cases hd : dataInvalid v
      · rw [if_pos hd] at h
        injection h with h
        rw [← h]
      · rw [if_neg hd] at h
        exact absurd h (by intro hh; exact ValidationStep.noConfusion hh)
    · rw [Bool.not_eq_true] at hk
      rw [if_pos (by rw [hk]; rfl)] at h
      injection h with h
      rw [← h]

/-- Witness for the amended C7: an unknown `type` with an `id` present is
rejected with the error tagged by that id. -/
def c7unknown : JSVal := .vobj [("type", .vstr "bogus"), ("id", .vstr "q7")]

theorem validation_error_policy_witness :
    validationEffects (.ok c7unknown) =
      ([{ error := "Unknown message type: bogus", requestId := .vstr "q7" }], [], true) ∧
    (∀ v, (.ok c7unknown : Except String JSVal) = .ok v →
      (!v.truthy || !(v.getField "type").isString) = true →
      ({ error := "Unknown message type: bogus", requestId := .vstr "q7" } : WSErrorOut).requestId = .vundef) ∧
    (∀ m, (.ok c7unknown : Except String JSVal) = .error m →
      ({ error := "Unknown message type: bogus", requestId := .vstr "q7" } : WSErrorOut).requestId = .vundef) ∧
    (∀ v, (.ok c7unknown : Except String JSVal) = .ok v →
      (!v.truthy || !(v.getField "type").isString) = false →
      ({ error := "Unknown message type: bogus", requestId := .vstr "q7" } : WSErrorOut).requestId = v.getField "id") :=
  validation_error_policy (.ok c7unknown)
    { error := "Unknown message type: bogus", requestId := .vstr "q7" } rfl

/-! ### The `update_node` message handler

The handler destructures `{ id, content, data, context, position, parent_id,
parentId }` from the message data and builds an `updates` object:
`content` truthy ⟹ full replacement (`JSON.stringify(content)`); otherwise
`data`/`position` truthy ⟹ one-level merge into the parsed existing content;
`context` truthy ⟹ context replacement; a `parent_id`/`parentId` key that is
not `undefined` ⟹ parent change.  JSON (de)serialisation of the flat content
payload is modelled by the concrete `encodeFields`/`decodeFields` codec
below; a `JSON.parse` failure on the stored content is a thrown exception. -/

def encodeFields (fs : List (String × String)) : String :=
  String.intercalate ";" (fs.map (fun p => p.1 ++ "=" ++ p.2))

def decodeFields (s : String) : Option (List (String × String)) :=
  if s == "" then some []
  else (s.splitOn ";").mapM (fun kv =>
    match kv.splitOn "=" with
    | [k, v] => some (k, v)
    | _ => none)

/-- String coercion of a one-level field value. -/
def JSVal.shallowStr : JSVal → String
  | .vstr s => s
  | .vnull => "null"
  | .vundef => "undefined"
  | .vbool b => if b then "true" else "false"
  | .vnum n => toString n
  | .vobj _ => "object"

/-- `JSON.stringify`, one level deep, over the codec above. -/
def JSVal.encode : JSVal → String
  | .vobj fs => encodeFields (fs.map (fun p => (p.1, p.2.shallowStr)))
  | v => v.shallowStr

/-- The fields contributed by spreading a value (`{...v}`): only objects
contribute any. -/
def JSVal.asFields : JSVal → List (String × String)
  | .vobj fs => fs.map (fun p => (p.1, p.2.shallowStr))
  | _ => []

/-- `{ ...existing, ...partialData }`: keys of `existing` keep their places,
overwritten where `partialData` has the key; new keys are appended. -/
def mergeFields (e p : List (String × String)) : List (String × String) :=
  e.map (fun kv =>
    match p.find? (fun kv2 => kv2.1 == kv.1) with
    | some kv2 => kv2
    | none => kv)
  ++ p.filter (fun kv2 => e.all (fun kv => !(kv.1 == kv2.1)))

/-- `merged.position = position`. -/
def setField (fs : List (String × String)) (k v : String) : List (String × String) :=
  if (fs.find? (fun p => p.1 == k)).isSome then
    fs.map (fun p => if p.1 == k then (k, v) else p)
  else fs ++ [(k, v)]

/-- The destructured data of an `update_node` message.  `context` is typed
`string | undefined`; the `parent_id`/`parentId` keys distinguish an absent
key (`none`) from a present `null` (`some none`). -/
structure UpdateNodeMsg where
  id : String
  content : JSVal := .vundef
  mergeData : JSVal := .vundef
  context : Option String := none
  position : JSVal := .vundef
  parent_id : Option (Option String) := none
  parentId : Option (Option String) := none

/-- The `updates.content` computation of the handler. -/
def wsContentUpdate (db : NodeTable) (m : UpdateNodeMsg) :
    Except Unit (Option String) :=
  if m.content.truthy then .ok (some m.content.encode)
  else if m.mergeData.truthy || m.position.truthy then
    match getNode db m.id with
    | some existing =>
      match decodeFields existing.content with
      | none => .error ()
      | some obj =>
        let merged := mergeFields obj m.mergeData.asFields
        let merged2 :=
          if m.position.truthy then setField merged "position" m.position.shallowStr
          else merged
        .ok (some (encodeFields merged2))
    | none => .ok none
  else .ok none

/-- The `if (context) updates.context = context` step: a falsy context
(absent or empty) contributes nothing. -/
def ctxOf : Option String → Option String
  | some s => if s == "" then none else some s
  | none => none

/-- `parent_id !== undefined ? parent_id : parentId`, kept only when not
`undefined`. -/
def wsParentUpdate (m : UpdateNodeMsg) : Option (Option String) :=
  match m.parent_id with
  | some v => some v
  | none => m.parentId

/-- The full `updates` object built by the `update_node` branch. -/
def wsBuildUpdates (db : NodeTable) (m : UpdateNodeMsg) :
    Except Unit NodeUpdates :=
  match wsContentUpdate db m with
  | .error e => .error e
  | .ok c =>
    .ok { content := c, context := ctxOf m.context, type := none
          parent_id := wsParentUpdate m }

inductive WsUpdateOutcome where
  | threw
  | notFoundErr (id : String)
  | updated (db' : NodeTable) (node : DBNode)

/-- Run `updateNode` and classify the result the way both handlers do: a
thrown exception reaches the surrounding catch (an error to the sender, no
broadcast), a `null` result sends a not-found error, and a node result is
broadcast. -/
def runUpdate (db : NodeTable) (id : String) (u : NodeUpdates) (now : Nat) :
    WsUpdateOutcome :=
  match updateNode db id u now with
  | none => .threw
  | some (_, none) => .notFoundErr id
  | some (db', some node) => .updated db' node

/-- The `update_node` branch of `handleMessage`: build the updates, then run
`updateNode`. -/
def wsHandleUpdateNode (db : NodeTable) (m : UpdateNodeMsg) (now : Nat) :
    WsUpdateOutcome :=
  match wsBuildUpdates db m with
  | .error _ => .threw
  | .ok u => runUpdate db m.id u now

/-- The node table after the handler ran: only the `updated` outcome carries
a mutated table. -/
def resultDB (o : WsUpdateOutcome) (db : NodeTable) : NodeTable :=
  match o with
  | .updated db' _ => db'
  | _ => db

/-- The `update_node` tool of the MCP server: `if (content) updates.content =
JSON.stringify(content); if (context) updates.context = context`. -/
def mcpBuildUpdates (content : JSVal) (context : Option String) : NodeUpdates :=
  { content := if content.truthy then some content.encode else none
    context := ctxOf context, type := none, parent_id := none }

def mcpHandleUpdateNode (db : NodeTable) (id : String) (content : JSVal)
    (context : Option String) (now : Nat) : WsUpdateOutcome :=
  runUpdate db id (mcpBuildUpdates content context) now

/-- Truthiness of the `context` value of an update message. -/
def ctxFalsy : Option String → Bool
  | none => true
  | some s => s == ""

theorem ctxOf_of_falsy (c : Option String) (h : ctxFalsy c = true) :
    ctxOf c = none := by
  cases c with
  | none => rfl
  | some s =>
    simp only [ctxFalsy] at h
    simp [ctxOf, h]

theorem ctxOf_ne_empty (c : Option String) (s : String) (h : ctxOf c = some s) :
    s ≠ "" := by
  cases c with
  | none => exact Option.noConfusion h
  | some t =>
    simp only [ctxOf] at h
    by_cases ht : t == ""
    · rw [if_pos ht] at h
      exact Option.noConfusion h
    · rw [if_neg ht] at h
      injection h with h
      subst h
      simpa using ht

theorem wsBuildUpdates_ok (db : NodeTable) (m : UpdateNodeMsg) (u : NodeUpdates)
    (h : wsBuildUpdates db m = .ok u) :
    wsContentUpdate db m = .ok u.content ∧ u.context = ctxOf m.context := by
  unfold wsBuildUpdates at h
  cases hc : wsContentUpdate db m with
  | error e =>
    rw [hc] at h
    exact Except.noConfusion h
  | ok c =>
    rw [hc] at h
    injection h with h
    subst h
    exact ⟨rfl, rfl⟩

theorem wsContentUpdate_falsy (db : NodeTable) (m : UpdateNodeMsg)
    (h1 : m.content.truthy = false) (h2 : m.mergeData.truthy = false)
    (h3 : m.position.truthy = false) :
    wsContentUpdate db m = .ok none := by
  unfold wsContentUpdate
  rw [if_neg (by simp [h1]), if_neg (by simp [h2, h3])]

theorem updateNode_result (db : NodeTable) (id : String) (u : NodeUpdates)
    (now : Nat) (n : DBNode) (db' : NodeTable) (n' : DBNode)
    (hn : getNode db id = some n)
    (h : updateNode db id u now = some (db', some n')) :
    n'.context = u.context.getD n.context ∧
    n'.content = u.content.getD n.content ∧
    getNode db' id = some n' := by
  unfold updateNode at h
  by_cases hf : hasFields u = false
  · rw [if_pos hf] at h
    injection h with h
    rw [Prod.mk.injEq] at h
    obtain ⟨hdb, hret⟩ := h
    subst hdb
    rw [hn] at hret
    injection hret with hret
    subst hret
    have hall : u.content = none ∧ u.context = none := by
      simp only [hasFields, Bool.or_eq_false_iff] at hf
      exact ⟨Option.not_isSome_iff_eq_none.mp (by simp [hf.1.1.1]),
             Option.not_isSome_iff_eq_none.mp (by simp [hf.1.1.2])⟩
    rw [hall.1, hall.2]
    exact ⟨rfl, rfl, hn⟩
  · rw [if_neg hf] at h
    simp only [hn] at h
    by_cases hfk : parentUpdateOk db u = true
    · rw [if_pos hfk] at h
      injection h with h
      rw [Prod.mk.injEq] at h
      obtain ⟨hdb, hret⟩ := h
      subst hdb
      rw [getNode_after_update db id u now n hn] at hret
      injection hret with hret
      subst hret
      exact ⟨rfl, rfl, getNode_after_update db id u now n hn⟩
    · rw [if_neg hfk] at h
      exact Option.noConfusion h

theorem runUpdate_node (db : NodeTable) (id : String) (u : NodeUpdates)
    (now : Nat) (n : DBNode) (hn : getNode db id = some n) :
    ∃ n', getNode (resultDB (runUpdate db id u now) db) id = some n' ∧
      (n' = n ∨ (n'.context = u.context.getD n.context ∧
                 n'.content = u.content.getD n.content)) := by
  unfold runUpdate
  cases hup : updateNode db id u now with
  | none => exact ⟨n, by simp [resultDB, hn], Or.inl rfl⟩
  | some pr =>
    obtain ⟨db2, ret⟩ := pr
    cases ret with
    | none => exact ⟨n, by simp [resultDB, hn], Or.inl rfl⟩
    | some node =>
      obtain ⟨h1, h2, h3⟩ := updateNode_result db id u now n db2 node hn hup
      exact ⟨node, by simpa [resultDB] using h3, Or.inr ⟨h1, h2⟩⟩

/-- Claim C10: at both public update interfaces a falsy `content`/`context`
field of an `update_node` request is silently skipped — the stored field is
unchanged — and in particular a node's non-empty context can never be
cleared to the empty string by any `update_node` request. -/
theorem update_node_cannot_clear_context (db : NodeTable) (m : UpdateNodeMsg)
    (now : Nat) (n : DBNode) (hn : getNode db m.id = some n) :
    (ctxFalsy m.context = true →
      ∃ n', getNode (resultDB (wsHandleUpdateNode db m now) db) m.id = some n' ∧
        n'.context = n.context) ∧
    (m.content.truthy = false → m.mergeData.truthy = false →
     m.position.truthy = false →
      ∃ n', getNode (resultDB (wsHandleUpdateNode db m now) db) m.id = some n' ∧
        n'.content = n.content) ∧
    (n.context ≠ "" →
      ∀ n', getNode (resultDB (wsHandleUpdateNode db m now) db) m.id = some n' →
        n'.context ≠ "") ∧
    (∀ (c : JSVal) (ctx : Option String), ctxFalsy ctx = true →
      ∃ n', getNode (resultDB (mcpHandleUpdateNode db m.id c ctx now) db) m.id = some n' ∧
        n'.context = n.context) := by
  refine ⟨?_, ?_, ?_, ?_⟩
  · intro hfal
    cases hbu : wsBuildUpdates db m with
    | error e => exact ⟨n, by simp [wsHandleUpdateNode, hbu, resultDB, hn], rfl⟩
    | ok u =>
      obtain ⟨hcu, hucx⟩ := wsBuildUpdates_ok db m u hbu
      have hnone : u.context = none := by
        rw [hucx]
        exact ctxOf_of_falsy _ hfal
      obtain ⟨n', hgn, hca⟩ := runUpdate_node db m.id u now n hn
      refine ⟨n', by simpa [wsHandleUpdateNode, hbu] using hgn, ?_⟩
      rcases hca with rfl | ⟨hcx, _⟩
      · rfl
      · rw [hcx, hnone]
        rfl
  · intro h1 h2 h3
    cases hbu : wsBuildUpdates db m with
    | error e => exact ⟨n, by simp [wsHandleUpdateNode, hbu, resultDB, hn], rfl⟩
    | ok u =>
      obtain ⟨hcu, hucx⟩ := wsBuildUpdates_ok db m u hbu
      have hcn : u.content = none := by
        rw [wsContentUpdate_falsy db m h1 h2 h3] at hcu
        injection hcu with hcu
        exact hcu.symm
      obtain ⟨n', hgn, hca⟩ := runUpdate_node db m.id u now n hn
      refine ⟨n', by simpa [wsHandleUpdateNode, hbu] using hgn, ?_⟩
      rcases hca with rfl | ⟨_, hct⟩
      · rfl
      · rw [hct, hcn]
        rfl
  · intro hne n' hgn'
    cases hbu : wsBuildUpdates db m with
    | error e =>
      have hx : getNode db m.id = some n' := by
        simpa [wsHandleUpdateNode, hbu, resultDB] using hgn'
      rw [hn] at hx
      injection hx with hx
      rw [← hx]
      exact hne
    | ok u =>
      obtain ⟨hcu, hucx⟩ := wsBuildUpdates_ok db m u hbu
      obtain ⟨n0, hgn0, hca⟩ := runUpdate_node db m.id u now n hn
      have hgn2 : getNode (resultDB (runUpdate db m.id u now) db) m.id = some n' := by
        simpa [wsHandleUpdateNode, hbu] using hgn'
      rw [hgn0] at hgn2
      injection hgn2 with heq
      subst heq
      rcases hca with rfl | ⟨hcx, _⟩
      · exact hne
      · rw [hcx, hucx]
        cases hco : ctxOf m.context with
        | none => simpa using hne
        | some s => simpa using ctxOf_ne_empty m.context s hco
  · intro c ctx hfal
    have hnone : (mcpBuildUpdates c ctx).context = none := by
      simp [mcpBuildUpdates, ctxOf_of_falsy _ hfal]
    obtain ⟨n', hgn, hca⟩ := runUpdate_node db m.id (mcpBuildUpdates c ctx) now n hn
    refine ⟨n', by simpa [mcpHandleUpdateNode] using hgn, ?_⟩
    rcases hca with rfl | ⟨hcx, _⟩
    · rfl
    · rw [hcx, hnone]
      rfl

/-- Witness for C10: an `update_node` carrying `context: ""` on the node of
`c9db` leaves its stored context `"x"` unchanged. -/
def c10msg : UpdateNodeMsg := { id := "a", context := some "" }

theorem update_node_cannot_clear_context_witness :
    (ctxFalsy c10msg.context = true →
      ∃ n', getNode (resultDB (wsHandleUpdateNode c9db c10msg 10) c9db) c10msg.id = some n' ∧
        n'.context = c9node.context) ∧
    (c10msg.content.truthy = false → c10msg.mergeData.truthy = false →
     c10msg.position.truthy = false →
      ∃ n', getNode (resultDB (wsHandleUpdateNode c9db c10msg 10) c9db) c10msg.id = some n' ∧
        n'.content = c9node.content) ∧
    (c9node.context ≠ "" →
      ∀ n', getNode (resultDB (wsHandleUpdateNode c9db c10msg 10) c9db) c10msg.id = some n' →
        n'.context ≠ "") ∧
    (∀ (c : JSVal) (ctx : Option String), ctxFalsy ctx = true →
      ∃ n', getNode (resultDB (mcpHandleUpdateNode c9db c10msg.id c ctx 10) c9db) c10msg.id = some n' ∧
        n'.context = c9node.context) :=
  update_node_cannot_clear_context c9db c10msg 10 c9node (by decide)

/-! ### The Claude query orchestrator (`handleClaudeQuery`)

The LLM round trip is modelled by an `LLMOutcome` parameter: either the
stream/batch call completes with a list of text chunks, or it fails (at the
initial call or mid-stream) after emitting some chunks, with the error's
message.  The generated uuids for the new node and edge are parameters.  The
handler returns the mutated server state, the ordered messages sent to the
originating connection only, and the ordered board broadcasts; `none` means
the handler never returns (the inherited-context walk diverged). -/

structure SrvState where
  db : NodeTable
  edges : List DBEdge
  settings : List (String × String)
deriving DecidableEq, Repr

def getSetting (st : SrvState) (k : String) : Option String :=
  (st.settings.find? (fun p => p.1 == k)).map Prod.snd

/-- `this.db.getSetting('agent_name') || 'Claude'`. -/
def agentNameOf (st : SrvState) : String :=
  match getSetting st "agent_name" with
  | some v => if v == "" then "Claude" else v
  | none => "Claude"

/-- `JSON.stringify({ question, response, position })`; `position` is omitted
when `undefined`, and the embedded strings are spliced without escaping. -/
def agentContent (question response : String) (pos : Option (Int × Int)) :
    String :=
  "\x7b\"question\":\"" ++ question ++ "\",\"response\":\"" ++ response ++ "\"" ++
  (match pos with
   | some (x, y) =>
     ",\"position\":\x7b\"x\":" ++ toString x ++ ",\"y\":" ++ toString y ++ "\x7d"
   | none => "") ++ "\x7d"

/-- The node created for an agent response: kind `conversation`, content the
question/response payload, context the full response text, and
`parent_id: parent_id || null`. -/
def agentNodeInput (newNodeId question response : String)
    (pos : Option (Int × Int)) (parent_id : Option String) : NodeInput :=
  { id := newNodeId, type := "conversation"
    content := agentContent question response pos
    context := response
    parent_id :=
      match parent_id with
      | some p => if p == "" then none else some p
      | none => none }

/-- A message sent to the originating connection only. -/
inductive OutMsg where
  | streamingChunk (chunk : String) (requestId : Option String)
  | errMsg (error : String) (requestId : Option String)
deriving DecidableEq, Repr

def OutMsg.isError : OutMsg → Bool
  | .errMsg _ _ => true
  | _ => false

/-- A message broadcast to a board. -/
inductive BoardMsg where
  | edgeCreated (e : DBEdge) (requestId : Option String)
  | claudeResponse (node : DBNode) (agentName : String) (requestId : Option String)
deriving DecidableEq, Repr

structure QueryResult where
  state : SrvState
  toCaller : List OutMsg
  broadcasts : List (String × BoardMsg)
deriving DecidableEq, Repr

/-- One LLM round trip: completion with the emitted chunks, or failure after
emitting some chunks, carrying the error's message. -/
inductive LLMOutcome where
  | success (chunks : List String)
  | failure (chunks : List String) (errMessage : String)
deriving DecidableEq, Repr

def outcomeChunks : LLMOutcome → List String
  | .success cs => cs
  | .failure cs _ => cs

/-- The `ask_claude` data: question, optional parent, optional extra context,
optional node position, and the stream flag. -/
structure QueryData where
  question : String
  parent_id : Option String := none
  context : Option String := none
  node_position : Option (Int × Int) := none
  stream : Bool := false
deriving DecidableEq, Repr

def notConfiguredMsg : String :=
  "Claude API not configured. Set ANTHROPIC_API_KEY in environment."

/-- The `fullContext` computation: `context || ''`, with the parent's
inherited context prepended (blank-line separated) when a parent id is
supplied and its inherited context is non-empty. -/
def fullContextOf (db : NodeTable) (q : QueryData) (fuel : Nat) :
    Option String :=
  let ctxArg := q.context.getD ""
  match q.parent_id with
  | some pid =>
    if pid == "" then some ctxArg
    else (getInheritedContext db pid fuel).map
      (fun inh => if inh == "" then ctxArg else inh ++ "\n\n" ++ ctxArg)
  | none => some ctxArg

/-- The system message built from the full context. -/
def systemMessageOf (fullContext : String) : String :=
  if fullContext == "" then "You are a helpful AI assistant."
  else "You are a helpful AI assistant. Here is the conversation context:\n\n"
    ++ fullContext

/-- `GetStickyWSServer.createAndBroadcastAgentNode`: create the agent node,
then — when a parent was supplied — create one `response`-labelled edge from
the parent and broadcast it, then broadcast the completed node with the
current agent display name.  `.inr` is a thrown statement error together
with the state as mutated so far. -/
def createAndBroadcastAgentNode (st : SrvState) (question response : String)
    (parent_id : Option String) (pos : Option (Int × Int))
    (boardId newNodeId newEdgeId : String) (now : Nat)
    (requestId : Option String) :
    (SrvState × List (String × BoardMsg)) ⊕ (SrvState × String) :=
  match createNode st.db (agentNodeInput newNodeId question response pos parent_id) now with
  | none => .inr (st, "SQLITE_CONSTRAINT")
  | some (db', node) =>
    let st1 : SrvState := { st with db := db' }
    match parent_id with
    | some pid =>
      if pid == "" then
        .inl (st1, [(boardId, .claudeResponse node (agentNameOf st1) requestId)])
      else
        match createEdge st1.db st1.edges
            { id := newEdgeId, source_id := pid, target_id := node.id
              label := some "response" } with
        | none => .inr (st1, "SQLITE_CONSTRAINT")
        | some edges' =>
          let st2 : SrvState := { st1 with edges := edges' }
          .inl (st2,
            [(boardId, .edgeCreated
                { id := newEdgeId, source_id := pid, target_id := node.id
                  label := some "response" } requestId),
             (boardId, .claudeResponse node (agentNameOf st2) requestId)])
    | none =>
      .inl (st1, [(boardId, .claudeResponse node (agentNameOf st1) requestId)])

/-- `GetStickyWSServer.handleClaudeQuery`: refuse immediately when no client
is configured; otherwise compute the inherited/full context; in streaming
mode forward each chunk to the caller only, and on completion (or on a batch
response) create and broadcast the agent node; any thrown error is caught
and reported to the caller as a single `Claude API error` message. -/
def handleClaudeQuery (configured : Bool) (outcome : LLMOutcome)
    (st : SrvState) (q : QueryData) (boardId newNodeId newEdgeId : String)
    (now fuel : Nat) (requestId : Option String) : Option QueryResult :=
  if !configured then
    some { state := st, toCaller := [.errMsg notConfiguredMsg requestId]
           broadcasts := [] }
  else
    (fullContextOf st.db q fuel).map (fun _fullContext =>
      if q.stream then
        let chunkMsgs := (outcomeChunks outcome).map
          (fun c => OutMsg.streamingChunk c requestId)
        match outcome with
        | .failure _ emsg =>
          { state := st
            toCaller := chunkMsgs ++ [.errMsg ("Claude API error: " ++ emsg) requestId]
            broadcasts := [] }
        | .success chunks =>
          match createAndBroadcastAgentNode st q.question (String.join chunks)
              q.parent_id q.node_position boardId newNodeId newEdgeId now requestId with
          | .inl (st', bms) =>
            { state := st', toCaller := chunkMsgs, broadcasts := bms }
          | .inr (st', emsg) =>
            { state := st'
              toCaller := chunkMsgs ++ [.errMsg ("Claude API error: " ++ emsg) requestId]
              broadcasts := [] }
      else
        match outcome with
        | .failure _ emsg =>
          { state := st
            toCaller := [.errMsg ("Claude API error: " ++ emsg) requestId]
            broadcasts := [] }
        | .success chunks =>
          match createAndBroadcastAgentNode st q.question (String.join chunks)
              q.parent_id q.node_position boardId newNodeId newEdgeId now requestId with
          | .inl (st', bms) =>
            { state := st', toCaller := [], broadcasts := bms }
          | .inr (st', emsg) =>
            { state := st'
              toCaller := [.errMsg ("Claude API error: " ++ emsg) requestId]
              broadcasts := [] })

theorem filter_isError_chunks (cs : List String) (rid : Option String) :
    (cs.map (fun c => OutMsg.streamingChunk c rid)).filter OutMsg.isError = [] := by
  induction cs with
  | nil => rfl
  | cons c t ih => simp [List.filter, OutMsg.isError, ih]

/-- Claim C2: an `ask_claude` query against an unconfigured backend is
answered by exactly one structured error and nothing else; and whenever the
backend fails — at the initial call or mid-stream after emitting any number
of chunks — the caller receives exactly one error message, nothing is
broadcast, and the server state (nodes, edges, settings) is exactly as
before: no node and no edge is created. -/
theorem claude_query_failure_atomic (st : SrvState) (q : QueryData)
    (boardId newNodeId newEdgeId : String) (now fuel : Nat)
    (requestId : Option String) :
    (∀ outcome, handleClaudeQuery false outcome st q boardId newNodeId newEdgeId
        now fuel requestId =
      some { state := st, toCaller := [.errMsg notConfiguredMsg requestId]
             broadcasts := [] }) ∧
    (∀ chunks emsg res,
      handleClaudeQuery true (.failure chunks emsg) st q boardId newNodeId
        newEdgeId now fuel requestId = some res →
      res.state = st ∧ res.broadcasts = [] ∧
      res.toCaller.filter OutMsg.isError =
        [.errMsg ("Claude API error: " ++ emsg) requestId]) := by
  constructor
  · intro outcome
    rfl
  · intro chunks emsg res h
    unfold handleClaudeQuery at h
    rw [if_neg (by decide)] at h
    cases hfc : fullContextOf st.db q fuel with
    | none =>
      rw [hfc] at h
      exact Option.noConfusion h
    | some fc =>
      rw [hfc] at h
      simp only [Option.map_some] at h
      injection h with h
      cases hs : q.stream
      · rw [hs] at h
        simp only [Bool.false_eq_true, if_false] at h
        rw [← h]
        refine ⟨rfl, rfl, ?_⟩
        simp [List.filter, OutMsg.isError]
      · rw [hs] at h
        simp only [if_true] at h
        rw [← h]
        refine ⟨rfl, rfl, ?_⟩
        simp only [outcomeChunks, List.filter_append, filter_isError_chunks]
        simp [List.filter, OutMsg.isError]

/-- Witness for C2: a streaming query that fails after emitting three chunks
leaves the store untouched and yields exactly one error. -/
def c2st : SrvState := { db := c4db, edges := [], settings := [] }

def c2q : QueryData := { question := "why?", stream := true }

def c2res : QueryResult :=
  { state := c2st
    toCaller :=
      [.streamingChunk "a" (some "r1"), .streamingChunk "b" (some "r1"),
       .streamingChunk "c" (some "r1"),
       .errMsg ("Claude API error: " ++ "boom") (some "r1")]
    broadcasts := [] }

theorem claude_query_failure_witness :
    c2res.state = c2st ∧ c2res.broadcasts = [] ∧
    c2res.toCaller.filter OutMsg.isError =
      [.errMsg ("Claude API error: " ++ "boom") (some "r1")] :=
  (claude_query_failure_atomic c2st c2q "b1" "n1" "e1" 7 5 (some "r1")).2
    ["a", "b", "c"] "boom" c2res rfl

theorem getNode_append_self (db : NodeTable) (row : DBNode)
    (h : getNode db row.id = none) : getNode (db ++ [row]) row.id = some row := by
  simp only [getNode] at h ⊢
  rw [List.find?_append, h]
  simp [List.find?]

theorem createAndBroadcastAgentNode_parent (st : SrvState)
    (question response pid : String) (pos : Option (Int × Int))
    (boardId newNodeId newEdgeId : String) (now : Nat)
    (requestId : Option String)
    (hpid : (pid == "") = false)
    (hfresh : getNode st.db newNodeId = none)
    (hpar : (getNode st.db pid).isSome = true)
    (hefresh : (st.edges.find? (fun x => x.id == newEdgeId)).isSome = false) :
    createAndBroadcastAgentNode st question response (some pid) pos boardId
        newNodeId newEdgeId now requestId =
      .inl
        ({ db := st.db ++
             [insertedRow (agentNodeInput newNodeId question response pos (some pid)) now]
           edges := st.edges ++
             [{ id := newEdgeId, source_id := pid, target_id := newNodeId
                label := some "response" }]
           settings := st.settings },
         [(boardId, .edgeCreated
             { id := newEdgeId, source_id := pid, target_id := newNodeId
               label := some "response" } requestId),
          (boardId, .claudeResponse
             (insertedRow (agentNodeInput newNodeId question response pos (some pid)) now)
             (agentNameOf st) requestId)]) := by
  have hip : (agentNodeInput newNodeId question response pos (some pid)).parent_id
      = some pid := by
    simp [agentNodeInput, hpid]
  have hcn : createNode st.db (agentNodeInput newNodeId question response pos (some pid)) now =
      some (st.db ++ [insertedRow (agentNodeInput newNodeId question response pos (some pid)) now],
            insertedRow (agentNodeInput newNodeId question response pos (some pid)) now) := by
    apply createNode_ok
    · exact hfresh
    · intro p hp
      rw [hip] at hp
      injection hp with hp
      subst hp
      right
      exact hpar
  have hrowid : (insertedRow (agentNodeInput newNodeId question response pos (some pid)) now).id
      = newNodeId := rfl
  obtain ⟨x, hx⟩ := Option.isSome_iff_exists.mp hpar
  have hsrc : getNode (st.db ++
      [insertedRow (agentNodeInput newNodeId question response pos (some pid)) now]) pid = some x :=
    getNode_append_of_some st.db _ pid x hx
  have htgt : getNode (st.db ++
      [insertedRow (agentNodeInput newNodeId question response pos (some pid)) now]) newNodeId =
      some (insertedRow (agentNodeInput newNodeId question response pos (some pid)) now) :=
    getNode_append_self st.db _ hfresh
  have hce : createEdge
      (st.db ++ [insertedRow (agentNodeInput newNodeId question response pos (some pid)) now])
      st.edges
      { id := newEdgeId, source_id := pid, target_id := newNodeId
        label := some "response" } =
      some (st.edges ++
        [{ id := newEdgeId, source_id := pid, target_id := newNodeId
           label := some "response" }]) := by
    unfold createEdge
    rw [if_neg (by simp [hefresh])]
    rw [if_pos]
    simp [hsrc, htgt]
  unfold createAndBroadcastAgentNode
  rw [hcn]
  simp only [hpid, Bool.false_eq_true, if_false, hrowid, hce]
  rfl

/-- Claim C6: a successful `ask_claude` query (streaming or batch) that
supplied a non-empty parent id creates exactly one edge from the parent to
the new node labelled `response`, broadcasts that edge-created event strictly
before the completed-query broadcast that carries the new node, and the
completed-query broadcast carries the current agent display name. -/
theorem claude_query_success_edge_before_node (st : SrvState) (q : QueryData)
    (pid boardId newNodeId newEdgeId : String) (now fuel : Nat)
    (requestId : Option String) (chunks : List String)
    (hq : q.parent_id = some pid)
    (hpid : (pid == "") = false)
    (hterm : ∃ ic, getInheritedContext st.db pid fuel = some ic)
    (hfresh : getNode st.db newNodeId = none)
    (hpar : (getNode st.db pid).isSome = true)
    (hefresh : (st.edges.find? (fun x => x.id == newEdgeId)).isSome = false) :
    handleClaudeQuery true (.success chunks) st q boardId newNodeId newEdgeId
        now fuel requestId =
      some
        { state :=
            { db := st.db ++
                [insertedRow (agentNodeInput newNodeId q.question
                  (String.join chunks) q.node_position (some pid)) now]
              edges := st.edges ++
                [{ id := newEdgeId, source_id := pid, target_id := newNodeId
                   label := some "response" }]
              settings := st.settings }
          toCaller :=
            if q.stream then
              chunks.map (fun c => OutMsg.streamingChunk c requestId)
            else []
          broadcasts :=
            [(boardId, .edgeCreated
                { id := newEdgeId, source_id := pid, target_id := newNodeId
                  label := some "response" } requestId),
             (boardId, .claudeResponse
                (insertedRow (agentNodeInput newNodeId q.question
                  (String.join chunks) q.node_position (some pid)) now)
                (agentNameOf st) requestId)] } := by
  obtain ⟨ic, hic⟩ := hterm
  unfold handleClaudeQuery
  rw [if_neg (by decide)]
  have hfc : fullContextOf st.db q fuel =
      some (if ic == "" then q.context.getD ""
            else ic ++ "\n\n" ++ q.context.getD "") := by
    unfold fullContextOf
    simp only [hq, hpid, Bool.false_eq_true, if_false, hic]
    rfl
  rw [hfc]
  simp only [Option.map_some, Option.some.injEq]
  have hcab := createAndBroadcastAgentNode_parent st q.question
    (String.join chunks) pid q.node_position boardId newNodeId newEdgeId now
    requestId hpid hfresh hpar hefresh
  cases hs : q.stream
  · simp only [Bool.false_eq_true, if_false, hq, hcab]
    rfl
  · simp only [if_true, hq, hcab, outcomeChunks]
    rfl

/-- Witness for C6: a batch query with parent `"c"` of `c4db` creates the
`response` edge and broadcasts it before the completed-node broadcast. -/
def c6q : QueryData := { question := "q2", parent_id := some "c", stream := false }

theorem claude_query_success_witness :
    handleClaudeQuery true (.success ["Hello"]) c2st c6q "b1" "n9" "e9" 7 5
        (some "r2") =
      some
        { state :=
            { db := c2st.db ++
                [insertedRow (agentNodeInput "n9" c6q.question
                  (String.join ["Hello"]) c6q.node_position (some "c")) 7]
              edges := c2st.edges ++
                [{ id := "e9", source_id := "c", target_id := "n9"
                   label := some "response" }]
              settings := c2st.settings }
          toCaller :=
            if c6q.stream then
              ["Hello"].map (fun c => OutMsg.streamingChunk c (some "r2"))
            else []
          broadcasts :=
            [("b1", .edgeCreated
                { id := "e9", source_id := "c", target_id := "n9"
                  label := some "response" } (some "r2")),
             ("b1", .claudeResponse
                (insertedRow (agentNodeInput "n9" c6q.question
                  (String.join ["Hello"]) c6q.node_position (some "c")) 7)
                (agentNameOf c2st) (some "r2"))] } :=
  claude_query_success_edge_before_node c2st c6q "c" "b1" "n9" "e9" 7 5
    (some "r2") ["Hello"] rfl (by decide) ⟨"A\n\nB", by decide⟩ (by decide)
    (by decide) (by decide)

end GetSticky
